import Mathlib

/-!
Verification of the batching sink engine of `target_bigquery/sinks.py`.

The development shallowly embeds the parts of the module the claims are
about:

* `bigquery_type` and `safe_column_name` — pure helper functions;
* the JSON-schema → BigQuery-schema translation
  (`jsonschema_prop_to_bq_column` / `_translate_record_to_bq_schema`),
  together with the sink-level coercion flag they compute;
* the coercion-aware record re-serialization `_parse_json_with_props`,
  modelled over an untyped Python-value universe `PyVal` because its
  behaviour depends on dynamic typing (attribute/key errors, truthiness);
* the `tenacity` retry decorators on `_make_target` and the per-strategy
  `_upload_records` methods, modelled as a runner over an oracle giving
  the outcome of each attempt of the undecorated body;
* `_evolve_schema`, and the `process_batch` bodies of the three sink
  strategies together with their job-admission queue.

Numeric record values are modelled as integers; floating point values do
not occur in any statement below.
-/

/-! ### Python exceptions and untyped values -/

/-- The Python exceptions that the embedded code can raise or that the
`tenacity` retry decorators inspect.  `retryError` models
`tenacity.RetryError` raised when attempts are exhausted on a retriable
*result* (it carries the last result). -/
inductive PyExc where
  | connectionResetError
  | connectionAbortedError
  | connectionError
  | attributeError
  | keyError
  | typeError
  | retryError (last : List String)
  | other (msg : String)
deriving DecidableEq, Repr

/-- Untyped Python values: the JSON-compatible universe that records and
(dynamic) schema dictionaries live in.  Dictionaries are association
lists in insertion order, as in Python. -/
inductive PyVal where
  | str (s : String)
  | int (n : Int)
  | bool (b : Bool)
  | none
  | list (xs : List PyVal)
  | dict (fs : List (String × PyVal))

namespace PyVal

/-- Python truthiness of a value (`if prop_spec:`). -/
def truthy : PyVal → Bool
  | .str s => s ≠ ""
  | .int n => n ≠ 0
  | .bool b => b
  | .none => false
  | .list xs => ¬ xs.isEmpty
  | .dict fs => ¬ fs.isEmpty

/-- Is the value a `dict` (`isinstance(contents, dict)`). -/
def isDict : PyVal → Bool
  | .dict _ => true
  | _ => false

/-- Is the value a `list` (`isinstance(contents, list)`). -/
def isList : PyVal → Bool
  | .list _ => true
  | _ => false

/-- `d.get(k)`: `None` when the key is absent, `AttributeError` when the
receiver is not a dictionary. -/
def get (v : PyVal) (k : String) : Except PyExc PyVal :=
  match v with
  | .dict fs =>
    match fs.find? (fun p => p.1 = k) with
    | some p => .ok p.2
    | Option.none => .ok .none
  | _ => .error .attributeError

/-- `d[k]`: `KeyError` when the key is absent, `TypeError` when the
receiver is not a dictionary. -/
def getItem (v : PyVal) (k : String) : Except PyExc PyVal :=
  match v with
  | .dict fs =>
    match fs.find? (fun p => p.1 = k) with
    | some p => .ok p.2
    | Option.none => .error .keyError
  | _ => .error .typeError

end PyVal

/-- Does `needle` occur as a contiguous substring of `hay`?  (Python
`needle in hay` for strings.) -/
def listHasSub (needle : List Char) : List Char → Bool
  | [] => needle.isEmpty
  | c :: rest => needle.isPrefixOf (c :: rest) || listHasSub needle rest

/-- Substring test on strings. -/
def strHasSub (needle hay : String) : Bool :=
  listHasSub needle.data hay.data

/-- Python `needle in hay` for a string needle: substring test on
strings, membership on lists, key membership on dicts, `TypeError`
otherwise. -/
def PyVal.hasMember (needle : String) (hay : PyVal) : Except PyExc Bool :=
  match hay with
  | .str s => .ok (strHasSub needle s)
  | .list xs => .ok (xs.any (fun x => match x with | .str t => t = needle | _ => false))
  | .dict fs => .ok (fs.any (fun p => p.1 = needle))
  | _ => .error .typeError

/-! ### Compact JSON serialization (`orjson.dumps(...).decode("utf-8")`)

`orjson.dumps` emits compact JSON: no whitespace, keys and strings quoted
with standard JSON escapes. -/

/-- Hexadecimal digit for `n < 16`. -/
def hexDigit (n : Nat) : Char :=
  if n < 10 then Char.ofNat (48 + n) else Char.ofNat (87 + n)

/-- JSON escaping of a single character, per the JSON standard used by
`orjson`: `"` and `\` get a backslash, control characters use the short
escapes or `\u00XX`, everything else passes through. -/
def jsonEscapeChar (c : Char) : List Char :=
  if c = '"' then ['\\', '"']
  else if c = '\\' then ['\\', '\\']
  else if c = '\n' then ['\\', 'n']
  else if c = '\t' then ['\\', 't']
  else if c = '\r' then ['\\', 'r']
  else if c = Char.ofNat 8 then ['\\', 'b']
  else if c = Char.ofNat 12 then ['\\', 'f']
  else if c.toNat < 32 then
    ['\\', 'u', '0', '0', hexDigit (c.toNat / 16), hexDigit (c.toNat % 16)]
  else [c]

/-- JSON string literal for `s`, quotes included. -/
def jsonQuote (s : String) : String :=
  ⟨'"' :: (s.data.flatMap jsonEscapeChar) ++ ['"']⟩

/-- Render a JSON integer (Python ints serialize in decimal). -/
def jsonInt (n : Int) : String := toString n

mutual

/-- `orjson.dumps` on a Python value, decoded to a string: compact JSON. -/
def orjson_dumps : PyVal → String
  | .str s => jsonQuote s
  | .int n => jsonInt n
  | .bool b => if b then "true" else "false"
  | .none => "null"
  | .list xs => "[" ++ orjson_dumpsList xs ++ "]"
  | .dict fs => "\x7b" ++ orjson_dumpsFields fs ++ "\x7d"

/-- Comma-separated serialization of array elements. -/
def orjson_dumpsList : List PyVal → String
  | [] => ""
  | [x] => orjson_dumps x
  | x :: y :: rest => orjson_dumps x ++ "," ++ orjson_dumpsList (y :: rest)

/-- Comma-separated serialization of object members. -/
def orjson_dumpsFields : List (String × PyVal) → String
  | [] => ""
  | [(k, v)] => jsonQuote k ++ ":" ++ orjson_dumps v
  | (k, v) :: p :: rest =>
    jsonQuote k ++ ":" ++ orjson_dumps v ++ "," ++ orjson_dumpsFields (p :: rest)

end

/-! ### `safe_column_name` -/

/-- The backtick character, written by code point to keep it out of the
source text. -/
def backtick : Char := Char.ofNat 96

/-- `name.replace("`", "")`: every backtick is removed. -/
def removeBackticks (s : String) : String :=
  ⟨s.data.filter (fun c => c ≠ backtick)⟩

/-- One character of `re.sub("[^a-zA-Z0-9_]", "_", name)`. -/
def subNonWordChar (c : Char) : Char :=
  if c.isAlphanum ∨ c = '_' then c else '_'

/-- `re.sub("[^a-zA-Z0-9_]", "_", name)`: every character outside
`[a-zA-Z0-9_]` is replaced by `_`. -/
def subNonWord (s : String) : String :=
  ⟨s.data.map subNonWordChar⟩

/-- ASCII lowercasing; after `subNonWord` only ASCII word characters
remain, so this coincides with Python `str.lower`. -/
def asciiLower (s : String) : String :=
  ⟨s.data.map Char.toLower⟩

/-- `safe_column_name` from `sinks.py`: backticks are removed, the
remaining characters outside `[a-zA-Z0-9_]` are replaced by `_`, the
result is optionally backtick-quoted and lowercased. -/
def safe_column_name (name : String) (quotes : Bool) : String :=
  let name1 := removeBackticks name
  let name2 := subNonWord name1
  if quotes then asciiLower (⟨[backtick]⟩ ++ name2 ++ ⟨[backtick]⟩)
  else asciiLower name2

/-- Modelled from the spec wording of the sanitization claim: replace
each character outside `[a-zA-Z0-9_]` with `_` and lowercase the result
(no mention of backtick removal).  Used only to compare against
`safe_column_name`. -/
def claimSanitize (name : String) : String :=
  asciiLower (subNonWord name)

/-! ### `bigquery_type` -/

/-- `bigquery_type` from `sinks.py`: translate a jsonschema type list
and optional format to a BigQuery type.  The declared types are a list
of strings; an absent format is `Option.none`. -/
def bigquery_type (property_type : List String) (property_format : Option String) : String :=
  if property_format = some "date-time" then "timestamp"
  else if property_format = some "date" then "date"
  else if property_format = some "time" then "time"
  else if "number" ∈ property_type then "float64"
  else if "integer" ∈ property_type ∧ "string" ∈ property_type then "string"
  else if "integer" ∈ property_type then "integer"
  else if "boolean" ∈ property_type then "boolean"
  else if "object" ∈ property_type then "record"
  else "string"

/-! ### JSON-schema model and schema translation

A schema property is modelled structurally: `type?` is the declared type
list (`Option.none` when the `"type"` key is absent), `format?` the
optional format, `properties` the declared child properties (absent and
empty are merged — every use in the source treats them alike), `items?`
the optional array item schema. -/

inductive SchemaProp where
  | mk (type? : Option (List String)) (format? : Option String)
      (properties : List (String × SchemaProp)) (items? : Option SchemaProp)

/-- The declared type list of a schema property. -/
def SchemaProp.type? : SchemaProp → Option (List String)
  | .mk t _ _ _ => t

/-- The declared format of a schema property. -/
def SchemaProp.format? : SchemaProp → Option String
  | .mk _ f _ _ => f

/-- The declared child properties of a schema property. -/
def SchemaProp.properties : SchemaProp → List (String × SchemaProp)
  | .mk _ _ ps _ => ps

/-- The declared item schema of a schema property. -/
def SchemaProp.items? : SchemaProp → Option SchemaProp
  | .mk _ _ _ i => i

/-- `x in schema_property.get("type", "string")`: membership when a type
list is declared; when the `"type"` key is absent the Python default is
the *string* `"string"` and the test degenerates to a substring test. -/
def declaredHas (t? : Option (List String)) (x : String) : Bool :=
  match t? with
  | some l => l.contains x
  | none => strHasSub x "string"

/-- `google.cloud.bigquery.SchemaField`: name, type, mode and (for
RECORD columns) child fields.  A plain column has no child fields. -/
inductive SchemaField where
  | mk (name : String) (fieldType : String) (mode : String) (fields : List SchemaField)

/-- The column name. -/
def SchemaField.name : SchemaField → String
  | .mk n _ _ _ => n

/-- The column type. -/
def SchemaField.fieldType : SchemaField → String
  | .mk _ t _ _ => t

/-- The column mode. -/
def SchemaField.mode : SchemaField → String
  | .mk _ _ m _ => m

/-- The child fields of a RECORD column. -/
def SchemaField.fields : SchemaField → List SchemaField
  | .mk _ _ _ fs => fs

mutual

/-- `BaseBigQuerySink.jsonschema_prop_to_bq_column`, with the sink's
mutable `_contains_coerced_field` flag made explicit as the second
component of the result.  When the declared type contains `"array"` but
the `"items"` key (or the item schema's `"type"` key) is missing, the
`KeyError` is caught and the column is coerced to a plain string; when
the declared type is absent, the Python default `"string"` makes every
membership test in `bigquery_type` fail, which the empty list also
does. -/
def jsonschema_prop_to_bq_column (name : String) (p : SchemaProp) : SchemaField × Bool :=
  match p with
  | .mk t? f? props items? =>
    let safe_name := safe_column_name name false
    if declaredHas t? "array" then
      match items? with
      | none => (.mk safe_name "string" "NULLABLE" [], true)
      | some its =>
        match its with
        | .mk itype? iformat? iprops _ =>
          match itype? with
          | none => (.mk safe_name "string" "NULLABLE" [], true)
          | some itypes =>
            let items_type := bigquery_type itypes iformat?
            if items_type = "record" then
              translate_record_to_bq_schema safe_name iprops "REPEATED"
            else (.mk safe_name items_type "REPEATED" [], false)
    else if declaredHas t? "object" then
      translate_record_to_bq_schema safe_name props "NULLABLE"
    else
      (.mk safe_name (bigquery_type (t?.getD []) f?) "NULLABLE" [], false)
termination_by (sizeOf p, 0)

/-- `BaseBigQuerySink._translate_record_to_bq_schema`: recursive descent
into a record object.  The source reads only
`schema_property.get("properties", {})` of its argument, which is passed
here directly; a record with no translated children is coerced to a
plain string column of the same mode and raises the coercion flag. -/
def translate_record_to_bq_schema (safe_name : String) (props : List (String × SchemaProp))
    (mode : String) : SchemaField × Bool :=
  let (fields, flag) := translateProps props
  if fields.isEmpty then (.mk safe_name "string" mode [], true)
  else (.mk safe_name "RECORD" mode fields, flag)
termination_by (sizeOf props, 1)

/-- Translation of a property list (the list comprehension over
`schema_property.get("properties", {}).items()`), accumulating the
coercion flag across children. -/
def translateProps : List (String × SchemaProp) → List SchemaField × Bool
  | [] => ([], false)
  | (n, q) :: rest =>
    let (f, c) := jsonschema_prop_to_bq_column n q
    let (fs, cs) := translateProps rest
    (f :: fs, c || cs)
termination_by l => (sizeOf l, 0)

end

/-! ### Coercion-aware record re-serialization (`_parse_json_with_props`)

The function is dynamically typed: it looks names up in whatever
dictionary it was handed, so it is modelled over `PyVal`. -/

/-- What the loop body of `_parse_json_with_props` decides to do with
one field. -/
inductive FieldAction where
  | keep
  | serializeIt
  | recObj (props : PyVal)
  | recArr (items : PyVal)

/-- The branch conditions of the loop body of `_parse_json_with_props`
for one field, evaluated in source order:  look the field name up in the
properties mapping (`.get`, `AttributeError` on a non-dict); a falsy
`prop_spec` keeps the value.  Otherwise `prop_spec["type"]` is read
(`KeyError`/`TypeError` propagate) and `"object" in` it is tested.  An
object with a dict value and no truthy `properties` is serialized; an
object with a dict value otherwise recurses into
`prop_spec["properties"]`; an array (`"array" in` the type) with a list
value recurses into `prop_spec["items"]` when that is truthy and is
serialized when it is not; everything else keeps the value. -/
def classifyField (name : String) (contents : PyVal) (ps : PyVal) :
    Except PyExc FieldAction :=
  match ps.get name with
  | .error e => .error e
  | .ok prop_spec =>
    if prop_spec.truthy then
      match prop_spec.getItem "type" with
      | .error e => .error e
      | .ok t =>
        match PyVal.hasMember "object" t with
        | .error e => .error e
        | .ok isObj =>
          match prop_spec.get "properties" with
          | .error e => .error e
          | .ok propsOpt =>
            if isObj ∧ contents.isDict ∧ ¬ propsOpt.truthy then
              .ok .serializeIt
            else if isObj ∧ contents.isDict then
              match prop_spec.getItem "properties" with
              | .error e => .error e
              | .ok props => .ok (.recObj props)
            else
              match PyVal.hasMember "array" t with
              | .error e => .error e
              | .ok isArr =>
                if isArr ∧ contents.isList then
                  match prop_spec.get "items" with
                  | .error e => .error e
                  | .ok itemsOpt =>
                    if itemsOpt.truthy then .ok (.recArr itemsOpt)
                    else .ok .serializeIt
                else
                  .ok .keep
    else
      .ok .keep

mutual

/-- `BaseBigQuerySink._parse_json_with_props`: walk a record in
lock-step with a properties dictionary, JSON-stringifying the subtrees
whose schema was coerced to string.  Iterating a non-dictionary raises
`AttributeError` (`record.items()`). -/
def parse_json_with_props (record propSpec : PyVal) : Except PyExc PyVal :=
  match record with
  | .dict fs =>
    match parseFields fs propSpec with
    | .error e => .error e
    | .ok fs2 => .ok (.dict fs2)
  | _ => .error .attributeError

/-- The `for name, contents in record.items()` loop: each field is
rewritten in place; the first exception aborts the walk. -/
def parseFields : List (String × PyVal) → PyVal → Except PyExc (List (String × PyVal))
  | [], _ => .ok []
  | (name, contents) :: rest, ps =>
    match parseField name contents ps with
    | .error e => .error e
    | .ok v2 =>
      match parseFields rest ps with
      | .error e => .error e
      | .ok rest2 => .ok ((name, v2) :: rest2)

/-- The body of the loop for one field: the looked-up `prop_spec` must
be truthy; an object with no truthy `properties` and a dict value is
JSON-stringified, an object with properties recurses, an array with
truthy `items` recurses into each element *passing the item schema
dictionary itself as the properties mapping* (as the source does), and
an array without `items` is JSON-stringified.  The branch conditions
live in `classifyField`; this driver performs the recursion the chosen
branch asks for. -/
def parseField (name : String) (contents : PyVal) (ps : PyVal) : Except PyExc PyVal :=
  match classifyField name contents ps with
  | .error e => .error e
  | .ok .keep => .ok contents
  | .ok .serializeIt => .ok (.str (orjson_dumps contents))
  | .ok (.recObj props) =>
    match contents with
    | .dict cfs =>
      match parseFields cfs props with
      | .error e => .error e
      | .ok cfs2 => .ok (.dict cfs2)
    | _ => .error .attributeError
  | .ok (.recArr items) =>
    match contents with
    | .list xs =>
      match parseItems xs items with
      | .error e => .error e
      | .ok xs2 => .ok (.list xs2)
    | _ => .error .attributeError

/-- The list comprehension over an array's elements: every element is
walked against the item schema dictionary (not its `properties`!). -/
def parseItems : List PyVal → PyVal → Except PyExc (List PyVal)
  | [], _ => .ok []
  | x :: rest, items =>
    match parse_json_with_props x items with
    | .error e => .error e
    | .ok x2 =>
      match parseItems rest items with
      | .error e => .error e
      | .ok rest2 => .ok (x2 :: rest2)

end

/-- `BaseBigQuerySink.preprocess_record`: records are re-serialized only
when the coercion flag was raised during schema translation. -/
def preprocess_record (contains_coerced_field : Bool) (record propSpec : PyVal) :
    Except PyExc PyVal :=
  if contains_coerced_field then parse_json_with_props record propSpec
  else .ok record

/-! ### The `tenacity` retry decorators

Each decorated method is modelled by an oracle `call : Nat → Attempt`
giving the outcome of the `i`-th (0-based) invocation of the undecorated
body, and a runner reproducing
`@retry(retry=…, reraise=True, stop=stop_after_attempt(stop))`. -/

/-- The connection classes named by every `retry_if_exception_type` in
the module: `ConnectionResetError`, `ConnectionAbortedError`,
`ConnectionError`. -/
def isConnectionErr : PyExc → Bool
  | .connectionResetError => true
  | .connectionAbortedError => true
  | .connectionError => true
  | _ => false

/-- The outcome of one attempt of a retried body: it either raises an
exception or returns a value (the error list for `insert_rows_json`,
`[]` for a body returning `None`). -/
inductive Attempt where
  | raises (e : PyExc)
  | returns (r : List String)
deriving DecidableEq, Repr

/-- A final, non-retriable outcome: a result is returned to the caller,
an exception propagates. -/
def attemptPass : Attempt → Except PyExc (List String)
  | .raises e => .error e
  | .returns r => .ok r

/-- Exhaustion with `reraise=True`: a last exception is re-raised as
itself; a last retriable *result* surfaces as `tenacity.RetryError`
carrying it. -/
def attemptReraise : Attempt → Except PyExc (List String)
  | .raises e => .error e
  | .returns r => .error (.retryError r)

/-- The retry loop: attempt `i` is made; a non-retriable outcome is
final, a retriable one is retried while attempts remain and is
re-raised once the stop condition is reached.  The fuel argument is the
number of attempts still allowed (the `stop_after_attempt` bound at the
top call); the 0-fuel case is never reached from `tenacityRun` with a
positive bound. -/
def tenacityGo (retryOn : Attempt → Bool) (call : Nat → Attempt) (i : Nat) :
    Nat → Except PyExc (List String) × Nat
  | 0 => (.error (.retryError []), i)
  | 1 =>
    if retryOn (call i) then (attemptReraise (call i), i + 1)
    else (attemptPass (call i), i + 1)
  | rem + 2 =>
    if retryOn (call i) then tenacityGo retryOn call (i + 1) (rem + 1)
    else (attemptPass (call i), i + 1)

/-- Run a `tenacity`-decorated body: result and number of attempts
made. -/
def tenacityRun (retryOn : Attempt → Bool) (stop : Nat) (call : Nat → Attempt) :
    Except PyExc (List String) × Nat :=
  tenacityGo retryOn call 0 stop

/-- Retry predicate of `BigQueryStreamingSink._upload_records`:
`retry_if_exception_type((ConnectionResetError, ConnectionAbortedError,
ConnectionError)) | retry_if_result(lambda r: bool(r))`. -/
def streamingRetryOn : Attempt → Bool
  | .raises e => isConnectionErr e
  | .returns r => ¬ r.isEmpty

/-- Retry predicate of every other decorator in the module: the
connection classes only. -/
def connRetryOn : Attempt → Bool
  | .raises e => isConnectionErr e
  | .returns _ => false

/-- The decorated `BigQueryStreamingSink._upload_records`:
`stop_after_attempt(5)`, retrying on connection-class exceptions and on
truthy returned error lists, `reraise=True`. -/
def streaming_upload_records (call : Nat → Attempt) : Except PyExc (List String) × Nat :=
  tenacityRun streamingRetryOn 5 call

/-- The decorated `BaseBigQuerySink._make_target`:
`stop_after_attempt(2)`, retrying on connection-class exceptions only,
`reraise=True`. -/
def make_target_retry (call : Nat → Attempt) : Except PyExc (List String) × Nat :=
  tenacityRun connRetryOn 2 call

/-- The network operations the sinks can perform. -/
inductive NetOp where
  | createDataset
  | createTable
  | insertRowsJob
  | loadFromBytes
  | loadFromUri (uri : String)
  | writeBlob (uri : String)
deriving DecidableEq, Repr

/-- The body of `_make_target`: the dataset and then the table are
created (`exists_ok=True`) only while their lazily-cached references are
still `None`; both references are populated afterwards. -/
def make_target_body (dataset_ref table_ref : Option Unit) :
    List NetOp × Option Unit × Option Unit :=
  ((if dataset_ref.isNone then [NetOp.createDataset] else []) ++
    (if table_ref.isNone then [NetOp.createTable] else []),
    some (), some ())

/-! ### Schema evolution (`_evolve_schema`) -/

mutual

/-- `google.cloud.bigquery.SchemaField.__eq__`: full structural
comparison of name, type, mode and child fields. -/
def schemaFieldBeq : SchemaField → SchemaField → Bool
  | .mk n t m fs, .mk n2 t2 m2 fs2 =>
    n == n2 && t == t2 && m == m2 && schemaFieldsBeq fs fs2

/-- Pointwise `schemaFieldBeq` on lists of fields. -/
def schemaFieldsBeq : List SchemaField → List SchemaField → Bool
  | [], [] => true
  | f :: fs, g :: gs => schemaFieldBeq f g && schemaFieldsBeq fs gs
  | _, _ => false

end

/-- One pass of `_evolve_schema`'s outer loop for a desired column.  A
column equal (by `SchemaField.__eq__`) to some column of the *original*
live schema is skipped.  Otherwise its name is recorded as a detected
change, and the inner `for mut_field in mutable_schema` loop runs: on a
name match the source assigns `mut_field = expected_field`, which only
rebinds the loop variable — `mutable_schema` is left unchanged; only
when no name matches (`else` of the `for`) is the column appended. -/
def evolveStep (original : List SchemaField) (acc : List String × List SchemaField)
    (expected : SchemaField) : List String × List SchemaField :=
  if original.any (fun f => schemaFieldBeq f expected) then acc
  else
    let detected := acc.1 ++ [expected.name]
    if acc.2.any (fun f => f.name == expected.name) then (detected, acc.2)
    else (detected, acc.2 ++ [expected])

/-- `BaseBigQuerySink._evolve_schema` up to the update call: the
detected-change names and the final `mutable_schema`, starting from a
copy of the live table schema. -/
def evolve_schema (bigquery_schema original : List SchemaField) :
    List String × List SchemaField :=
  bigquery_schema.foldl (evolveStep original) ([], original)

/-- The schema submitted by `_evolve_schema`'s `update_table` call:
`some` revised schema when any change was detected, `none` (no network
call) otherwise. -/
def evolve_schema_update (bigquery_schema original : List SchemaField) :
    Option (List SchemaField) :=
  let r := evolve_schema bigquery_schema original
  if r.1.isEmpty then Option.none else some r.2

/-! ### The three upload strategies' batch completion -/

/-- The runtime type of the per-sink `job_queue`:
`BaseBigQuerySink.__init__` assigns `self.job_queue = set()`, an
instance attribute that shadows the class-level `job_queue = []` of
`BigQueryStreamingSink`. -/
inductive PyContainer where
  | pyset (xs : List String)
  | pylist (xs : List String)
deriving DecidableEq, Repr

/-- `.append(x)`: a method of `list`; `set` objects have no such
attribute, so calling it on a set raises `AttributeError`. -/
def PyContainer.append (c : PyContainer) (x : String) : Except PyExc PyContainer :=
  match c with
  | .pyset _ => .error .attributeError
  | .pylist xs => .ok (.pylist (xs ++ [x]))

/-- The job queue as `BaseBigQuerySink.__init__` leaves it: an empty
`set`. -/
def init_job_queue : PyContainer := PyContainer.pyset []

/-- Python `str()` of a record value; container values fall back to
their JSON rendering (Python's `repr` differs only in quoting, and no
statement below depends on it). -/
def pyScalarStr : PyVal → String
  | .str s => s
  | .int n => toString n
  | .bool b => if b then "True" else "False"
  | .none => "None"
  | v => orjson_dumps v

/-- `BigQueryStreamingSink._generate_batch_row_ids`: with no key
properties the comprehension's condition filters out every row;
otherwise each row's key values are stringified and joined with
`"--"` (`row[k]` raises `KeyError` for a missing key). -/
def generate_batch_row_ids (key_properties : List String) (records : List PyVal) :
    Except PyExc (List String) :=
  if key_properties.isEmpty then .ok []
  else records.mapM (fun row => do
    let vals ← key_properties.mapM (fun k => row.getItem k)
    pure (String.intercalate "--" (vals.map pyScalarStr)))

/-- `BigQueryStreamingSink.process_batch`: a zero-size batch returns at
once; otherwise row ids are built, the streaming insert job is handed to
the executor, and a token is appended to the job queue (with the
removal callback registered afterwards).  Returns the network operations
dispatched and, on success, the updated queue and the flushed record
buffer. -/
def streaming_process_batch (current_size : Nat) (records_to_drain : List PyVal)
    (key_properties : List String) (job_queue : PyContainer) :
    List NetOp × Except PyExc (PyContainer × List PyVal) :=
  if current_size = 0 then ([], .ok (job_queue, records_to_drain))
  else
    match generate_batch_row_ids key_properties records_to_drain with
    | .error e => ([], .error e)
    | .ok _ =>
      match job_queue.append "X" with
      | .error e => ([.insertRowsJob], .error e)
      | .ok q2 => ([.insertRowsJob], .ok (q2, []))

/-- `BigQueryBatchSink.process_batch`: a zero-size batch returns at
once; otherwise the buffered bytes are submitted as a load job through
the retry decorator (`call` gives each attempt's outcome). -/
def batch_process_batch (current_size : Nat) (call : Nat → Attempt) :
    List NetOp × Except PyExc (List String) :=
  if current_size = 0 then ([], .ok [])
  else
    let r := tenacityRun connRetryOn 5 call
    (List.replicate r.2 NetOp.loadFromBytes, r.1)

/-- The staging object path used by `BigQueryGcsStagingSink` for a
batch. -/
def gcs_blob_uri (base_blob_path batch_id : String) : String :=
  base_blob_path ++ "/" ++ batch_id ++ ".jsonl"

/-- `BigQueryGcsStagingSink.process_batch`: a zero-size batch returns
at once; otherwise a load-from-URI job on the batch's staging object is
submitted through the retry decorator. -/
def gcs_process_batch (current_size : Nat) (base_blob_path batch_id : String)
    (call : Nat → Attempt) : List NetOp × Except PyExc (List String) :=
  if current_size = 0 then ([], .ok [])
  else
    let r := tenacityRun connRetryOn 5 call
    (List.replicate r.2 (NetOp.loadFromUri (gcs_blob_uri base_blob_path batch_id)), r.1)

/-! ### Claims -/

/-- C1: for a scalar schema property, `bigquery_type` resolves exactly
one warehouse type by the fixed precedence: format `date-time` gives
timestamp; format `date` gives date; format `time` gives time; otherwise
a type list containing `number` gives float64; containing both `integer`
and `string` gives string; containing `integer` gives integer;
containing `boolean` gives boolean; containing `object` gives record;
anything else gives string. -/
theorem c1_scalar_type_precedence (t : List String) (f : Option String) :
    (f = some "date-time" → bigquery_type t f = "timestamp")
    ∧ (f ≠ some "date-time" → f = some "date" → bigquery_type t f = "date")
    ∧ (f ≠ some "date-time" → f ≠ some "date" → f = some "time" →
        bigquery_type t f = "time")
    ∧ (f ≠ some "date-time" → f ≠ some "date" → f ≠ some "time" →
        "number" ∈ t → bigquery_type t f = "float64")
    ∧ (f ≠ some "date-time" → f ≠ some "date" → f ≠ some "time" →
        "number" ∉ t → "integer" ∈ t → "string" ∈ t → bigquery_type t f = "string")
    ∧ (f ≠ some "date-time" → f ≠ some "date" → f ≠ some "time" →
        "number" ∉ t → "integer" ∈ t → "string" ∉ t → bigquery_type t f = "integer")
    ∧ (f ≠ some "date-time" → f ≠ some "date" → f ≠ some "time" →
        "number" ∉ t → "integer" ∉ t → "boolean" ∈ t → bigquery_type t f = "boolean")
    ∧ (f ≠ some "date-time" → f ≠ some "date" → f ≠ some "time" →
        "number" ∉ t → "integer" ∉ t → "boolean" ∉ t → "object" ∈ t →
        bigquery_type t f = "record")
    ∧ (f ≠ some "date-time" → f ≠ some "date" → f ≠ some "time" →
        "number" ∉ t → "integer" ∉ t → "boolean" ∉ t → "object" ∉ t →
        bigquery_type t f = "string") := by
  refine ⟨?_, ?_, ?_, ?_, ?_, ?_, ?_, ?_, ?_⟩ <;> intros <;> simp_all [bigquery_type]

/-- C1 witness: a numeric type list with no format resolves to
float64. -/
theorem c1_witness : bigquery_type ["number"] Option.none = "float64" :=
  (c1_scalar_type_precedence ["number"] Option.none).2.2.2.1
    (by decide) (by decide) (by decide) (by decide)

/-- C4 counterexample: the claim's sanitization (replace every
character outside `[a-zA-Z0-9_]` with `_`, then lowercase) disagrees
with `safe_column_name` on a name containing a backtick, which the code
*removes* before substituting. -/
theorem c4_counterexample :
    safe_column_name "a`b" false = "ab"
    ∧ claimSanitize "a`b" = "a_b"
    ∧ safe_column_name "a`b" false ≠ claimSanitize "a`b" :=
  ⟨rfl, rfl, by decide⟩

/-- C4 (amended): the sanitized column name is produced by first
removing every backtick, then replacing each character outside
`[a-zA-Z0-9_]` with `_` and lowercasing the result; in particular
`"User-Name!"` yields `"user_name_"`. -/
theorem c4_amended_sanitization (name : String) :
    safe_column_name name false = claimSanitize (removeBackticks name)
    ∧ safe_column_name "User-Name!" false = "user_name_" :=
  ⟨rfl, rfl⟩

/-- C3: the schema translation coerces the object property `x` (declared
with no `properties`) nested under an array's `items` to a string column
and raises the coercion flag, yet `_parse_json_with_props` leaves the
corresponding record subtree untouched as a dict instead of replacing it
with its JSON text encoding: recursion into array elements looks field
names up in the item schema dictionary itself (whose keys are `type`,
`properties`), so nothing nested under an array is ever serialized. -/
theorem c3_coerced_array_item_not_serialized :
    jsonschema_prop_to_bq_column "arr"
        (.mk (some ["array"]) Option.none []
          (some (.mk (some ["object"]) Option.none
            [("x", .mk (some ["object"]) Option.none [] Option.none)] Option.none)))
      = (.mk "arr" "RECORD" "REPEATED" [.mk "x" "string" "NULLABLE" []], true)
    ∧ parse_json_with_props
        (.dict [("arr", .list [.dict [("x", .dict [("a", .int 1)])]])])
        (.dict [("arr", .dict [("type", .list [.str "array"]),
          ("items", .dict [("type", .list [.str "object"]),
            ("properties", .dict [("x", .dict [("type", .list [.str "object"])])])])])])
      = .ok (.dict [("arr", .list [.dict [("x", .dict [("a", .int 1)])]])])
    ∧ (PyVal.dict [("a", PyVal.int 1)]
        ≠ PyVal.str (orjson_dumps (PyVal.dict [("a", PyVal.int 1)]))) := by
  refine ⟨?_, ?_, fun h => PyVal.noConfusion h⟩
  · have hsx : safe_column_name "x" false = "x" := rfl
    have harr : safe_column_name "arr" false = "arr" := rfl
    simp [jsonschema_prop_to_bq_column, translate_record_to_bq_schema, translateProps,
      declaredHas, bigquery_type, hsx, harr]
  · simp [parse_json_with_props, parseFields, parseField, parseItems, classifyField,
      PyVal.get, PyVal.getItem, PyVal.truthy, PyVal.hasMember, PyVal.isDict, PyVal.isList]

/-- C9: on a desired column whose name matches a live column with a
different definition, `_evolve_schema` records a detected change and
submits an update, but the local working copy still carries the *old*
definition: the source's `mut_field = expected_field` rebinds the loop
variable only, so the claimed wholesale replacement never happens. -/
theorem c9_name_match_replacement_lost :
    evolve_schema [SchemaField.mk "a" "string" "NULLABLE" []]
        [SchemaField.mk "a" "integer" "NULLABLE" []]
      = (["a"], [SchemaField.mk "a" "integer" "NULLABLE" []])
    ∧ evolve_schema_update [SchemaField.mk "a" "string" "NULLABLE" []]
        [SchemaField.mk "a" "integer" "NULLABLE" []]
      = some [SchemaField.mk "a" "integer" "NULLABLE" []]
    ∧ SchemaField.mk "a" "integer" "NULLABLE" []
        ≠ SchemaField.mk "a" "string" "NULLABLE" [] :=
  ⟨rfl, rfl, by simp⟩

/-- C6: on the first non-empty batch, `BigQueryStreamingSink.process_batch`
dispatches the insert and then calls `.append` on `self.job_queue`,
which `BaseBigQuerySink.__init__` assigned a `set` (shadowing the
class-level list), so `AttributeError` is raised: no admission token is
ever added to, or removed from, the queue. -/
theorem c6_streaming_append_on_set_raises :
    streaming_process_batch 1 [PyVal.dict [("id", PyVal.str "1")]] ["id"] init_job_queue
      = ([NetOp.insertRowsJob], .error .attributeError) :=
  rfl

/-- C7: a batch in which zero records arrived performs no network
operation on completion in any of the three strategies: each
`process_batch` returns immediately, dispatching no insert, load or
staging operation and leaving its state unchanged. -/
theorem c7_zero_record_batch_no_network (records : List PyVal) (keys : List String)
    (q : PyContainer) (call call2 : Nat → Attempt) (path bid : String) :
    streaming_process_batch 0 records keys q = ([], .ok (q, records))
    ∧ batch_process_batch 0 call = ([], .ok [])
    ∧ gcs_process_batch 0 path bid call2 = ([], .ok []) :=
  ⟨rfl, rfl, rfl⟩

/-! ### Retry-policy lemmas -/

/-- The retry loop makes at most `rem` further attempts. -/
theorem tenacityGo_count (R : Attempt → Bool) (call : Nat → Attempt) :
    ∀ rem i, (tenacityGo R call i rem).2 ≤ i + rem
  | 0, i => by simp [tenacityGo]
  | 1, i => by
    by_cases h : R (call i) = true <;> simp [tenacityGo, h]
  | rem + 2, i => by
    by_cases h : R (call i) = true
    · have hrec := tenacityGo_count R call (rem + 1) (i + 1)
      simp only [tenacityGo, h, if_true]
      omega
    · simp [tenacityGo, h]

/-- When every remaining attempt is retriable, the loop exhausts them
all and re-raises the last outcome. -/
theorem tenacityGo_allfail (R : Attempt → Bool) (call : Nat → Attempt) :
    ∀ rem i, 1 ≤ rem → (∀ j, j < rem → R (call (i + j)) = true) →
      tenacityGo R call i rem = (attemptReraise (call (i + rem - 1)), i + rem)
  | 0, i => fun h _ => absurd h (by omega)
  | 1, i => fun _ h => by
    have h0 : R (call i) = true := by simpa using h 0 (by omega)
    simp [tenacityGo, h0]
  | rem + 2, i => fun _ h => by
    have h0 : R (call i) = true := by simpa using h 0 (by omega)
    have hrec := tenacityGo_allfail R call (rem + 1) (i + 1) (by omega)
      (fun j hj => by
        have hh := h (j + 1) (by omega)
        rw [show i + 1 + j = i + (j + 1) from by omega]
        exact hh)
    simp only [tenacityGo, h0, if_true]
    rw [hrec, show i + 1 + (rem + 1) - 1 = i + (rem + 2) - 1 from by omega,
      show i + 1 + (rem + 1) = i + (rem + 2) from by omega]

/-- The first non-retriable attempt ends the loop with its outcome. -/
theorem tenacityGo_firstpass (R : Attempt → Bool) (call : Nat → Attempt) :
    ∀ rem i k, k < rem → (∀ j, j < k → R (call (i + j)) = true) →
      R (call (i + k)) = false →
      tenacityGo R call i rem = (attemptPass (call (i + k)), i + k + 1)
  | 0, i, k => fun hk _ _ => absurd hk (by omega)
  | 1, i, k => fun hk _ hfail => by
    have hk0 : k = 0 := by omega
    subst hk0
    simp only [Nat.add_zero] at hfail
    simp [tenacityGo, hfail]
  | rem + 2, i, k => fun hk hall hfail => by
    cases k with
    | zero =>
      simp only [Nat.add_zero] at hfail
      simp [tenacityGo, hfail]
    | succ k2 =>
      have h0 : R (call i) = true := by simpa using hall 0 (by omega)
      have hrec := tenacityGo_firstpass R call (rem + 1) (i + 1) k2 (by omega)
        (fun j hj => by
          have hh := hall (j + 1) (by omega)
          rw [show i + 1 + j = i + (j + 1) from by omega]
          exact hh)
        (by
          rw [show i + 1 + k2 = i + (k2 + 1) from by omega]
          exact hfail)
      simp only [tenacityGo, h0, if_true]
      rw [hrec, show i + 1 + k2 = i + (k2 + 1) from by omega]

/-- C5: the streaming insert is attempted at most 5 times; its retry
predicate fires both on connection-class exceptions and on non-empty
returned error lists; when all 5 attempts fail retriably the last error
is re-raised to the caller (a last exception as itself, a last error
list wrapped in `RetryError`); the first non-retriable attempt's outcome
is final. -/
theorem c5_streaming_retry_policy (call : Nat → Attempt) :
    (streaming_upload_records call).2 ≤ 5
    ∧ ((∀ j, j < 5 → streamingRetryOn (call j) = true) →
        streaming_upload_records call = (attemptReraise (call 4), 5))
    ∧ (∀ k, k < 5 → (∀ j, j < k → streamingRetryOn (call j) = true) →
        streamingRetryOn (call k) = false →
        streaming_upload_records call = (attemptPass (call k), k + 1)) := by
  refine ⟨?_, ?_, ?_⟩
  · simpa [streaming_upload_records, tenacityRun] using
      tenacityGo_count streamingRetryOn call 5 0
  · intro h
    simpa [streaming_upload_records, tenacityRun] using
      tenacityGo_allfail streamingRetryOn call 5 0 (by omega)
        (fun j hj => by simpa using h j hj)
  · intro k hk hall hfail
    simpa [streaming_upload_records, tenacityRun] using
      tenacityGo_firstpass streamingRetryOn call 5 0 k hk
        (fun j hj => by simpa using hall j hj) (by simpa using hfail)

/-- C5 witness: an insert call that always returns a non-empty error
list is attempted 5 times and the error then reaches the caller. -/
theorem c5_witness :
    streaming_upload_records (fun _ => .returns ["err"])
      = (.error (.retryError ["err"]), 5) :=
  (c5_streaming_retry_policy (fun _ => .returns ["err"])).2.1 (fun _ _ => rfl)

/-- C8: target provisioning (create the dataset if its reference is
absent, then the table if its reference is absent) makes at most 2
attempts, retries only on the three connection classes — a non-connection
exception propagates after the first attempt — and after a second
retriable failure the last error is re-raised. -/
theorem c8_make_target_retry_policy (call : Nat → Attempt) :
    (make_target_retry call).2 ≤ 2
    ∧ ((∀ j, j < 2 → connRetryOn (call j) = true) →
        make_target_retry call = (attemptReraise (call 1), 2))
    ∧ (∀ e, isConnectionErr e = false → call 0 = .raises e →
        make_target_retry call = (.error e, 1))
    ∧ (connRetryOn (call 0) = true → connRetryOn (call 1) = false →
        make_target_retry call = (attemptPass (call 1), 2))
    ∧ make_target_body Option.none Option.none
        = ([NetOp.createDataset, NetOp.createTable], some (), some ())
    ∧ make_target_body (some ()) (some ()) = ([], some (), some ()) := by
  refine ⟨?_, ?_, ?_, ?_, rfl, rfl⟩
  · simpa [make_target_retry, tenacityRun] using tenacityGo_count connRetryOn call 2 0
  · intro h
    simpa [make_target_retry, tenacityRun] using
      tenacityGo_allfail connRetryOn call 2 0 (by omega)
        (fun j hj => by simpa using h j hj)
  · intro e he hc
    have hfail : connRetryOn (call 0) = false := by simp [hc, connRetryOn, he]
    have hp := tenacityGo_firstpass connRetryOn call 2 0 0 (by omega)
      (fun j hj => absurd hj (by omega)) (by simpa using hfail)
    simp only [make_target_retry, tenacityRun]
    rw [show (0 : Nat) + 0 = 0 from rfl] at hp
    rw [hp, hc]
    rfl
  · intro h0 h1
    simpa [make_target_retry, tenacityRun] using
      tenacityGo_firstpass connRetryOn call 2 0 1 (by omega)
        (fun j hj => by
          have hj0 : j = 0 := by omega
          subst hj0
          simpa using h0)
        (by simpa using h1)

/-- C8 witness: two consecutive connection errors exhaust the 2 attempts
and the last exception is re-raised. -/
theorem c8_witness :
    make_target_retry (fun _ => .raises .connectionError)
      = (.error .connectionError, 2) :=
  (c8_make_target_retry_policy (fun _ => .raises .connectionError)).2.1
    (fun _ _ => rfl)

/-! ### No empty RECORD columns (C2) -/

mutual

/-- A translated column tree never pairs the RECORD type with an empty
child list. -/
def noEmptyRecord : SchemaField → Bool
  | .mk _ t _ fs => (!(t == "RECORD") || !fs.isEmpty) && noEmptyRecordList fs

/-- `noEmptyRecord` on every column of a list. -/
def noEmptyRecordList : List SchemaField → Bool
  | [] => true
  | f :: fs => noEmptyRecord f && noEmptyRecordList fs

end

/-- `bigquery_type` returns lowercase type names, never the RECORD
spelling used for struct columns. -/
theorem bigquery_type_ne_RECORD (t : List String) (f : Option String) :
    ¬ bigquery_type t f = "RECORD" := by
  unfold bigquery_type
  repeat' split
  all_goals decide

/-- Size-bounded induction: every column tree produced by the
translation functions satisfies `noEmptyRecord`. -/
theorem noEmptyRecord_translation : ∀ k : Nat,
    (∀ l, sizeOf l ≤ k → noEmptyRecordList (translateProps l).1 = true)
    ∧ (∀ sn props mode, sizeOf props ≤ k →
        noEmptyRecord (translate_record_to_bq_schema sn props mode).1 = true)
    ∧ (∀ name p, sizeOf p ≤ k →
        noEmptyRecord (jsonschema_prop_to_bq_column name p).1 = true) := by
  intro k
  induction k with
  | zero =>
    refine ⟨?_, ?_, ?_⟩
    · intro l hl
      cases l with
      | nil => simp only [List.nil.sizeOf_spec] at hl; omega
      | cons a l2 => simp only [List.cons.sizeOf_spec] at hl; omega
    · intro sn props mode h
      cases props with
      | nil => simp only [List.nil.sizeOf_spec] at h; omega
      | cons a l2 => simp only [List.cons.sizeOf_spec] at h; omega
    · intro name p h
      cases p with
      | mk t f pr it => simp only [SchemaProp.mk.sizeOf_spec] at h; omega
  | succ k ih =>
    obtain ⟨ihl, iht, ihj⟩ := ih
    have hlist : ∀ l, sizeOf l ≤ k + 1 → noEmptyRecordList (translateProps l).1 = true := by
      intro l hl
      cases l with
      | nil => simp [translateProps, noEmptyRecordList]
      | cons nq rest =>
        obtain ⟨n, q⟩ := nq
        have hq : sizeOf q ≤ k := by
          simp only [List.cons.sizeOf_spec, Prod.mk.sizeOf_spec] at hl; omega
        have hrest : sizeOf rest ≤ k := by
          simp only [List.cons.sizeOf_spec, Prod.mk.sizeOf_spec] at hl; omega
        have h1 := ihj n q hq
        have h2 := ihl rest hrest
        rcases hq1 : jsonschema_prop_to_bq_column n q with ⟨f, c⟩
        rcases hr : translateProps rest with ⟨fs, cs⟩
        rw [hq1] at h1
        rw [hr] at h2
        simp only at h1 h2
        simp [translateProps, hq1, hr, noEmptyRecordList, h1, h2]
    have htrans : ∀ sn props mode, sizeOf props ≤ k + 1 →
        noEmptyRecord (translate_record_to_bq_schema sn props mode).1 = true := by
      intro sn props mode h
      rcases hp : translateProps props with ⟨fields, flag⟩
      have hf := hlist props h
      rw [hp] at hf
      simp only at hf
      by_cases he : fields.isEmpty
      · simp [translate_record_to_bq_schema, hp, he, noEmptyRecord, noEmptyRecordList]
      · simp [translate_record_to_bq_schema, hp, he, noEmptyRecord, noEmptyRecordList, hf]
    have hjson : ∀ name p, sizeOf p ≤ k + 1 →
        noEmptyRecord (jsonschema_prop_to_bq_column name p).1 = true := by
      intro name p h
      cases p with
      | mk t f pr it =>
        by_cases ha : declaredHas t "array" = true
        · cases it with
          | none => simp [jsonschema_prop_to_bq_column, ha, noEmptyRecord, noEmptyRecordList]
          | some its =>
            cases its with
            | mk it2 if2 ipr iit =>
              cases it2 with
              | none =>
                simp [jsonschema_prop_to_bq_column, ha, noEmptyRecord, noEmptyRecordList]
              | some itypes =>
                have hb : sizeOf ipr ≤ k + 1 := by
                  simp only [SchemaProp.mk.sizeOf_spec, Option.some.sizeOf_spec] at h
                  omega
                by_cases hrec : bigquery_type itypes if2 = "record"
                · simp only [jsonschema_prop_to_bq_column, ha, if_true, hrec, if_pos]
                  exact htrans _ _ _ hb
                · simp [jsonschema_prop_to_bq_column, ha, hrec, noEmptyRecord,
                    noEmptyRecordList, bigquery_type_ne_RECORD itypes if2]
        · by_cases ho : declaredHas t "object" = true
          · have hb : sizeOf pr ≤ k + 1 := by
              simp only [SchemaProp.mk.sizeOf_spec] at h; omega
            rw [jsonschema_prop_to_bq_column.eq_def]
            simp only [ha, ho, Bool.false_eq_true, if_false, if_true]
            exact htrans _ _ _ hb
          · rw [jsonschema_prop_to_bq_column.eq_def]
            simp [ha, ho, noEmptyRecord, noEmptyRecordList,
              bigquery_type_ne_RECORD (t.getD []) f]
    exact ⟨hlist, htrans, hjson⟩

/-- C2: an object property with no (or empty) declared `properties`
translates to a plain NULLABLE string column with the coercion flag set;
an array property with no `items` translates to a plain NULLABLE string
column with the flag set; an array of record items with no child
properties translates to a REPEATED (mode-preserving) string column with
the flag set; and no column tree the translator emits contains a RECORD
column with zero child columns. -/
theorem c2_empty_shape_coercion :
    (∀ (name : String) (t? : Option (List String)) (f? : Option String)
        (props : List (String × SchemaProp)),
      declaredHas t? "array" = true →
      jsonschema_prop_to_bq_column name (.mk t? f? props Option.none)
        = (.mk (safe_column_name name false) "string" "NULLABLE" [], true))
    ∧ (∀ (name : String) (t? : Option (List String)) (f? : Option String)
        (items? : Option SchemaProp),
      declaredHas t? "array" = false → declaredHas t? "object" = true →
      jsonschema_prop_to_bq_column name (.mk t? f? [] items?)
        = (.mk (safe_column_name name false) "string" "NULLABLE" [], true))
    ∧ (∀ (name : String) (t? : Option (List String)) (f? : Option String)
        (props : List (String × SchemaProp)) (itypes : List String)
        (if? : Option String) (iitems? : Option SchemaProp),
      declaredHas t? "array" = true → bigquery_type itypes if? = "record" →
      jsonschema_prop_to_bq_column name
          (.mk t? f? props (some (.mk (some itypes) if? [] iitems?)))
        = (.mk (safe_column_name name false) "string" "REPEATED" [], true))
    ∧ (∀ (name : String) (p : SchemaProp),
      noEmptyRecord (jsonschema_prop_to_bq_column name p).1 = true) := by
  refine ⟨?_, ?_, ?_, ?_⟩
  · intro name t? f? props ha
    simp [jsonschema_prop_to_bq_column, ha]
  · intro name t? f? items? ha ho
    rw [jsonschema_prop_to_bq_column.eq_def]
    simp [ha, ho, translate_record_to_bq_schema, translateProps]
  · intro name t? f? props itypes if? iitems? ha hrec
    simp [jsonschema_prop_to_bq_column, ha, hrec, translate_record_to_bq_schema,
      translateProps]
  · intro name p
    exact (noEmptyRecord_translation (sizeOf p)).2.2 name p le_rfl

/-- C2 witness: an object property with empty `properties` becomes a
NULLABLE string column with the coercion flag raised. -/
theorem c2_witness :
    jsonschema_prop_to_bq_column "meta" (.mk (some ["object"]) Option.none [] Option.none)
      = (.mk (safe_column_name "meta" false) "string" "NULLABLE" [], true) :=
  c2_empty_shape_coercion.2.1 "meta" (some ["object"]) Option.none Option.none
    (by decide) (by decide)

/-! ### Frame properties of the re-serialization (C10) -/

/-- A list value is not a dict. -/
theorem PyVal.isDict_false_of_isList (v : PyVal) (h : v.isList = true) : v.isDict = false := by
  cases v <;> simp_all [PyVal.isList, PyVal.isDict]

/-- A dict value is not a list. -/
theorem PyVal.isList_false_of_isDict (v : PyVal) (h : v.isDict = true) : v.isList = false := by
  cases v <;> simp_all [PyVal.isList, PyVal.isDict]

/-- A dict value is literally a `dict`. -/
theorem PyVal.eq_dict_of_isDict (v : PyVal) (h : v.isDict = true) :
    ∃ fs, v = .dict fs := by
  cases v <;> simp_all [PyVal.isDict]

/-- A list value is literally a `list`. -/
theorem PyVal.eq_list_of_isList (v : PyVal) (h : v.isList = true) :
    ∃ xs, v = .list xs := by
  cases v <;> simp_all [PyVal.isList]

/-- When one membership test on a value succeeds, any other needle's
test on the same value succeeds as well (both only need the value's
shape). -/
theorem PyVal.hasMember_ok_shape (a b : String) (t : PyVal) (bb : Bool)
    (h : PyVal.hasMember a t = .ok bb) : ∃ b2, PyVal.hasMember b t = .ok b2 := by
  cases t <;> simp_all [PyVal.hasMember]

/-- A successful item access means the receiver is a dict, so `.get`
always succeeds on it. -/
theorem PyVal.get_ok_of_getItem_ok (v : PyVal) (k k2 : String) (w : PyVal)
    (h : v.getItem k = .ok w) : ∃ w2, v.get k2 = .ok w2 := by
  cases v with
  | dict fs =>
    simp only [PyVal.get]
    cases hf : fs.find? (fun p => p.1 = k2) <;> simp [hf]
  | str s => simp [PyVal.getItem] at h
  | int n => simp [PyVal.getItem] at h
  | bool b => simp [PyVal.getItem] at h
  | none => simp [PyVal.getItem] at h
  | list xs => simp [PyVal.getItem] at h

/-- A truthy `.get` result means the key is present, so `.getItem`
returns the same value. -/
theorem PyVal.getItem_ok_of_get_truthy (v : PyVal) (k : String) (w : PyVal)
    (h : v.get k = .ok w) (ht : w.truthy = true) : v.getItem k = .ok w := by
  cases v with
  | dict fs =>
    simp only [PyVal.get] at h
    simp only [PyVal.getItem]
    cases hf : fs.find? (fun p => p.1 = k) with
    | none =>
      rw [hf] at h
      cases h
      simp [PyVal.truthy] at ht
    | some pr =>
      rw [hf] at h
      exact h
  | str s => simp [PyVal.get] at h
  | int n => simp [PyVal.get] at h
  | bool b => simp [PyVal.get] at h
  | none => simp [PyVal.get] at h
  | list xs => simp [PyVal.get] at h

/-- The driver returns the field unchanged when the classification says
keep. -/
theorem parseField_keep (name : String) (v ps : PyVal)
    (h : classifyField name v ps = .ok .keep) : parseField name v ps = .ok v := by
  rw [parseField.eq_def, h]

/-- The driver JSON-stringifies the field when the classification says
serialize. -/
theorem parseField_serialize (name : String) (v ps : PyVal)
    (h : classifyField name v ps = .ok .serializeIt) :
    parseField name v ps = .ok (.str (orjson_dumps v)) := by
  rw [parseField.eq_def, h]

/-- The driver propagates a classification error. -/
theorem parseField_error (name : String) (v ps : PyVal) (e : PyExc)
    (h : classifyField name v ps = .error e) : parseField name v ps = .error e := by
  rw [parseField.eq_def, h]

/-- The driver recurses into a dict field on an object
classification. -/
theorem parseField_recObj (name : String) (ps props : PyVal) (cfs : List (String × PyVal))
    (h : classifyField name (.dict cfs) ps = .ok (.recObj props)) :
    parseField name (.dict cfs) ps
      = (match parseFields cfs props with
          | .error e => .error e
          | .ok cfs2 => .ok (.dict cfs2)) := by
  rw [parseField.eq_def, h]

/-- The driver recurses into a list field on an array classification. -/
theorem parseField_recArr (name : String) (ps items : PyVal) (xs : List PyVal)
    (h : classifyField name (.list xs) ps = .ok (.recArr items)) :
    parseField name (.list xs) ps
      = (match parseItems xs items with
          | .error e => .error e
          | .ok xs2 => .ok (.list xs2)) := by
  rw [parseField.eq_def, h]

/-- A successful field walk preserves the field names in order, and
(under distinct names) processes each field's value independently with
`parseField`. -/
theorem parseFields_ok_spec (fs : List (String × PyVal)) : ∀ (ps : PyVal)
    (fs2 : List (String × PyVal)), parseFields fs ps = .ok fs2 →
    fs2.map Prod.fst = fs.map Prod.fst ∧
    (∀ name v v2, (fs.map Prod.fst).Nodup → (name, v) ∈ fs → (name, v2) ∈ fs2 →
      parseField name v ps = .ok v2) := by
  induction fs with
  | nil =>
    intro ps fs2 h
    simp only [parseFields] at h
    cases h
    exact ⟨rfl, by intro name v v2 _ hv _; simp at hv⟩
  | cons nc rest ih =>
    obtain ⟨n, c⟩ := nc
    intro ps fs2 h
    cases hf : parseField n c ps with
    | error e => simp [parseFields, hf] at h
    | ok w =>
      cases hr : parseFields rest ps with
      | error e => simp [parseFields, hf, hr] at h
      | ok rest2 =>
        simp only [parseFields, hf, hr, Except.ok.injEq] at h
        subst h
        obtain ⟨ihmap, ihmem⟩ := ih ps rest2 hr
        refine ⟨by simp [ihmap], ?_⟩
        intro name v v2 hnd hv hv2
        simp only [List.map_cons, List.nodup_cons] at hnd
        rcases List.mem_cons.mp hv with heq | hv3
        · injection heq with h1 h2
          subst h1
          subst h2
          rcases List.mem_cons.mp hv2 with heq2 | hv4
          · injection heq2 with g1 g2
            rw [g2]
            exact hf
          · exfalso
            have hm : name ∈ rest2.map Prod.fst := List.mem_map_of_mem Prod.fst hv4
            rw [ihmap] at hm
            exact hnd.1 hm
        · have hne : name ≠ n := by
            intro hcontra
            subst hcontra
            exact hnd.1 (List.mem_map_of_mem Prod.fst hv3)
          rcases List.mem_cons.mp hv2 with heq2 | hv4
          · injection heq2 with g1 g2
            exact absurd g1 hne
          · exact ihmem name v v2 hnd.2 hv3 hv4

/-- Case characterization of one field's treatment: a falsy (or absent)
spec keeps the value; a declared object with a dict value and no truthy
`properties` is replaced by its compact JSON text; a declared array with
a list value and no truthy `items` likewise; a value of neither
container shape is kept; recursion into a declared object keeps a dict,
and recursion into a declared array keeps a list (neither becomes JSON
text); a dict value whose declared type has no `"object"` is kept, and
a list value whose declared type has no `"array"` is kept — the
wrong-container combinations all fall through to keep. -/
theorem parseField_cases (name : String) (v ps p v2 : PyVal)
    (hp : ps.get name = .ok p) (hok : parseField name v ps = .ok v2) :
    (p.truthy = false → v2 = v)
    ∧ (∀ t, p.truthy = true → p.getItem "type" = .ok t →
        PyVal.hasMember "object" t = .ok true → v.isDict = true →
        (∃ pr, p.get "properties" = .ok pr ∧ pr.truthy = false) →
        v2 = .str (orjson_dumps v))
    ∧ (∀ t, p.truthy = true → p.getItem "type" = .ok t →
        PyVal.hasMember "array" t = .ok true → v.isList = true →
        (∃ io, p.get "items" = .ok io ∧ io.truthy = false) →
        v2 = .str (orjson_dumps v))
    ∧ (p.truthy = true → v.isDict = false → v.isList = false → v2 = v)
    ∧ (∀ t pr, p.truthy = true → p.getItem "type" = .ok t →
        PyVal.hasMember "object" t = .ok true → v.isDict = true →
        p.get "properties" = .ok pr → pr.truthy = true →
        v2.isDict = true)
    ∧ (∀ t io, p.truthy = true → p.getItem "type" = .ok t →
        PyVal.hasMember "array" t = .ok true → v.isList = true →
        p.get "items" = .ok io → io.truthy = true →
        v2.isList = true)
    ∧ (∀ t, p.truthy = true → p.getItem "type" = .ok t →
        PyVal.hasMember "object" t = .ok false → v.isDict = true →
        v2 = v)
    ∧ (∀ t, p.truthy = true → p.getItem "type" = .ok t →
        PyVal.hasMember "array" t = .ok false → v.isList = true →
        v2 = v) := by
  refine ⟨?_, ?_, ?_, ?_, ?_, ?_, ?_, ?_⟩
  · intro h1
    have hcl : classifyField name v ps = .ok .keep := by
      simp [classifyField, hp, h1]
    rw [parseField_keep name v ps hcl] at hok
    exact (Except.ok.inj hok).symm
  · rintro t h1 ht hobj hd ⟨pr, hpr, hprf⟩
    have hcl : classifyField name v ps = .ok .serializeIt := by
      simp [classifyField, hp, h1, ht, hobj, hpr, hprf, hd]
    rw [parseField_serialize name v ps hcl] at hok
    exact (Except.ok.inj hok).symm
  · rintro t h1 ht harr hl ⟨io, hio, hiof⟩
    obtain ⟨b2, hobj⟩ := PyVal.hasMember_ok_shape "array" "object" t true harr
    obtain ⟨pr0, hpr0⟩ := PyVal.get_ok_of_getItem_ok p "type" "properties" t ht
    have hdf : v.isDict = false := PyVal.isDict_false_of_isList v hl
    have hcl : classifyField name v ps = .ok .serializeIt := by
      simp [classifyField, hp, h1, ht, hobj, hpr0, harr, hio, hiof, hdf, hl]
    rw [parseField_serialize name v ps hcl] at hok
    exact (Except.ok.inj hok).symm
  · intro h1 hd hl
    cases ht : p.getItem "type" with
    | error e =>
      have hcl : classifyField name v ps = .error e := by
        simp [classifyField, hp, h1, ht]
      rw [parseField_error name v ps e hcl] at hok
      exact absurd hok (by simp)
    | ok t =>
      cases hobj : PyVal.hasMember "object" t with
      | error e =>
        have hcl : classifyField name v ps = .error e := by
          simp [classifyField, hp, h1, ht, hobj]
        rw [parseField_error name v ps e hcl] at hok
        exact absurd hok (by simp)
      | ok b =>
        obtain ⟨pr0, hpr0⟩ := PyVal.get_ok_of_getItem_ok p "type" "properties" t ht
        cases harr : PyVal.hasMember "array" t with
        | error e =>
          have hcl : classifyField name v ps = .error e := by
            simp [classifyField, hp, h1, ht, hobj, hpr0, harr, hd, hl]
          rw [parseField_error name v ps e hcl] at hok
          exact absurd hok (by simp)
        | ok b3 =>
          have hcl : classifyField name v ps = .ok .keep := by
            simp [classifyField, hp, h1, ht, hobj, hpr0, harr, hd, hl]
          rw [parseField_keep name v ps hcl] at hok
          exact (Except.ok.inj hok).symm
  · intro t pr h1 ht hobj hd hpr hprt
    obtain ⟨cfs, rfl⟩ := PyVal.eq_dict_of_isDict v hd
    have hgi : p.getItem "properties" = .ok pr :=
      PyVal.getItem_ok_of_get_truthy p "properties" pr hpr hprt
    have hcl : classifyField name (.dict cfs) ps = .ok (.recObj pr) := by
      simp [classifyField, hp, h1, ht, hobj, hpr, hprt, hgi, PyVal.isDict]
    rw [parseField_recObj name ps pr cfs hcl] at hok
    revert hok
    cases hpf : parseFields cfs pr with
    | error e =>
      intro hok
      simp at hok
    | ok cfs2 =>
      intro hok
      simp only [Except.ok.injEq] at hok
      rw [← hok]
      simp [PyVal.isDict]
  · intro t io h1 ht harr hl hio hiot
    obtain ⟨xs, rfl⟩ := PyVal.eq_list_of_isList v hl
    obtain ⟨b2, hobj⟩ := PyVal.hasMember_ok_shape "array" "object" t true harr
    obtain ⟨pr0, hpr0⟩ := PyVal.get_ok_of_getItem_ok p "type" "properties" t ht
    have hcl : classifyField name (.list xs) ps = .ok (.recArr io) := by
      simp [classifyField, hp, h1, ht, hobj, hpr0, harr, hio, hiot, PyVal.isDict,
        PyVal.isList]
    rw [parseField_recArr name ps io xs hcl] at hok
    revert hok
    cases hpf : parseItems xs io with
    | error e =>
      intro hok
      simp at hok
    | ok xs2 =>
      intro hok
      simp only [Except.ok.injEq] at hok
      rw [← hok]
      simp [PyVal.isList]
  · intro t h1 ht hobjF hd
    have hlf : v.isList = false := PyVal.isList_false_of_isDict v hd
    obtain ⟨pr0, hpr0⟩ := PyVal.get_ok_of_getItem_ok p "type" "properties" t ht
    cases harr : PyVal.hasMember "array" t with
    | error e =>
      have hcl : classifyField name v ps = .error e := by
        simp [classifyField, hp, h1, ht, hobjF, hpr0, harr]
      rw [parseField_error name v ps e hcl] at hok
      exact absurd hok (by simp)
    | ok b3 =>
      have hcl : classifyField name v ps = .ok .keep := by
        simp [classifyField, hp, h1, ht, hobjF, hpr0, harr, hd, hlf]
      rw [parseField_keep name v ps hcl] at hok
      exact (Except.ok.inj hok).symm
  · intro t h1 ht harrF hl
    have hdf : v.isDict = false := PyVal.isDict_false_of_isList v hl
    obtain ⟨b2, hobj⟩ := PyVal.hasMember_ok_shape "array" "object" t false harrF
    obtain ⟨pr0, hpr0⟩ := PyVal.get_ok_of_getItem_ok p "type" "properties" t ht
    have hcl : classifyField name v ps = .ok .keep := by
      simp [classifyField, hp, h1, ht, hobj, hpr0, harrF, hdf, hl]
    rw [parseField_keep name v ps hcl] at hok
    exact (Except.ok.inj hok).symm

/-- C10: in a successful coercion re-serialization pass over a record
with distinct field names, for each field (with looked-up spec `p`):
an absent or falsy spec keeps the original value; a field declared
object without truthy `properties` whose value is a dict becomes its
compact JSON text; a field declared array without truthy `items` whose
value is a list becomes its compact JSON text; a field whose value is
neither a dict nor a list keeps its original value; recursion into
declared object/array children keeps the container shape; and the
wrong-container combinations — a dict value whose declared type has no
`"object"`, a list value whose declared type has no `"array"` (so in
particular an array-coerced field with a dict value, an object-coerced
field with a list value, and a scalar-declared field with either
container value) — keep their original value.  Only the coerced fields
are replaced by JSON text. -/
theorem c10_coercion_frame
    (fields fields2 : List (String × PyVal)) (ps : PyVal)
    (hok : parse_json_with_props (.dict fields) ps = .ok (.dict fields2))
    (hnd : (fields.map Prod.fst).Nodup)
    (name : String) (v v2 p : PyVal)
    (hv : (name, v) ∈ fields) (hv2 : (name, v2) ∈ fields2)
    (hp : ps.get name = .ok p) :
    (p.truthy = false → v2 = v)
    ∧ (∀ t, p.truthy = true → p.getItem "type" = .ok t →
        PyVal.hasMember "object" t = .ok true → v.isDict = true →
        (∃ pr, p.get "properties" = .ok pr ∧ pr.truthy = false) →
        v2 = .str (orjson_dumps v))
    ∧ (∀ t, p.truthy = true → p.getItem "type" = .ok t →
        PyVal.hasMember "array" t = .ok true → v.isList = true →
        (∃ io, p.get "items" = .ok io ∧ io.truthy = false) →
        v2 = .str (orjson_dumps v))
    ∧ (p.truthy = true → v.isDict = false → v.isList = false → v2 = v)
    ∧ (∀ t pr, p.truthy = true → p.getItem "type" = .ok t →
        PyVal.hasMember "object" t = .ok true → v.isDict = true →
        p.get "properties" = .ok pr → pr.truthy = true →
        v2.isDict = true)
    ∧ (∀ t io, p.truthy = true → p.getItem "type" = .ok t →
        PyVal.hasMember "array" t = .ok true → v.isList = true →
        p.get "items" = .ok io → io.truthy = true →
        v2.isList = true)
    ∧ (∀ t, p.truthy = true → p.getItem "type" = .ok t →
        PyVal.hasMember "object" t = .ok false → v.isDict = true →
        v2 = v)
    ∧ (∀ t, p.truthy = true → p.getItem "type" = .ok t →
        PyVal.hasMember "array" t = .ok false → v.isList = true →
        v2 = v) := by
  have hpf : parseFields fields ps = .ok fields2 := by
    revert hok
    cases hc : parseFields fields ps with
    | error e =>
      intro hok
      simp [parse_json_with_props, hc] at hok
    | ok fs2 =>
      intro hok
      simp only [parse_json_with_props, hc, Except.ok.injEq, PyVal.dict.injEq] at hok
      rw [hok]
  exact parseField_cases name v ps p v2 hp
    ((parseFields_ok_spec fields ps fields2 hpf).2 name v v2 hnd hv hv2)

/-- C10 witness: on a concrete record with one coerced object field
(dict value, schema without `properties`), one type-mismatched field
(int value under an object schema, kept) and one undeclared field
(kept), the coerced field's stored value is exactly the compact JSON
text of its subtree. -/
theorem c10_witness :
    PyVal.str "\x7b\"k\":1\x7d"
      = PyVal.str (orjson_dumps (PyVal.dict [("k", PyVal.int 1)])) := by
  have hdump : orjson_dumps (PyVal.dict [("k", PyVal.int 1)]) = "\x7b\"k\":1\x7d" := by
    simp [orjson_dumps, orjson_dumpsFields, jsonQuote, jsonEscapeChar, jsonInt]
    decide
  have hok : parse_json_with_props
      (.dict [("a", .dict [("k", .int 1)]), ("b", .int 7), ("zz", .str "q")])
      (.dict [("a", .dict [("type", .list [.str "object"])]),
        ("b", .dict [("type", .list [.str "object"])])])
      = .ok (.dict [("a", .str "\x7b\"k\":1\x7d"), ("b", .int 7), ("zz", .str "q")]) := by
    simp [parse_json_with_props, parseFields, parseField, classifyField, parseItems,
      PyVal.get, PyVal.getItem, PyVal.truthy, PyVal.hasMember, PyVal.isDict, PyVal.isList,
      hdump]
  exact (c10_coercion_frame
    [("a", .dict [("k", .int 1)]), ("b", .int 7), ("zz", .str "q")]
    [("a", .str "\x7b\"k\":1\x7d"), ("b", .int 7), ("zz", .str "q")]
    (.dict [("a", .dict [("type", .list [.str "object"])]),
      ("b", .dict [("type", .list [.str "object"])])])
    hok (by decide) "a" (.dict [("k", .int 1)]) (.str "\x7b\"k\":1\x7d")
    (.dict [("type", .list [.str "object"])])
    (List.Mem.head _) (List.Mem.head _) rfl).2.1
    (.list [.str "object"]) rfl rfl rfl rfl ⟨.none, rfl, rfl⟩
